import Mathlib

/-!
Verification of the CRSF frame reassembler and payload codec
(repository `ESP_CRSF`, header `src/include/ESP_CRSF.h`).

The repository ships only the public header and README: the `.c`
implementation of the reassembler and codec is not part of the sources.
Definitions whose doc comment starts with `Modelled from the spec:`
therefore embed the behaviour described by the design document; the
enumeration constants and record layouts are transcribed from the header.

Bytes are modelled as `Nat` with explicit `% 256` where width matters.
-/

namespace CRSF

/-- Destination tag `CRSF_DEST_FC = 0xC8`, from the header's `crsf_dest_t`. -/
def CRSF_DEST_FC : Nat := 0xC8

/-- Destination tag `CRSF_DEST_RADIO = 0xEA`, from the header's `crsf_dest_t`. -/
def CRSF_DEST_RADIO : Nat := 0xEA

/-- Type tag `CRSF_TYPE_LINK = 0x14`, from the header's `crsf_type_t`. -/
def CRSF_TYPE_LINK : Nat := 0x14

/-- Type tag `CRSF_TYPE_CHANNELS = 0x16`, from the header's `crsf_type_t`. -/
def CRSF_TYPE_CHANNELS : Nat := 0x16

/-- Type tag `CRSF_TYPE_BATTERY = 0x08`, from the header's `crsf_type_t`. -/
def CRSF_TYPE_BATTERY : Nat := 0x08

/-- Type tag `CRSF_TYPE_GPS = 0x02`, from the header's `crsf_type_t`. -/
def CRSF_TYPE_GPS : Nat := 0x02

/-- Type tag `CRSF_TYPE_ALTITUDE = 0x09`, from the header's `crsf_type_t`. -/
def CRSF_TYPE_ALTITUDE : Nat := 0x09

/-- Type tag `CRSF_TYPE_ATTITUDE = 0x1E`, from the header's `crsf_type_t`. -/
def CRSF_TYPE_ATTITUDE : Nat := 0x1E

/-- Modelled from the spec: a byte is a plausible sync byte iff it matches a
known destination tag (flight controller or radio). -/
def isDest (b : Nat) : Bool := b == CRSF_DEST_FC || b == CRSF_DEST_RADIO

/-- Modelled from the spec: the length byte counts type+payload+crc and must be
at least 2 and at most the largest supported payload (22 bytes) plus 2. -/
def lenOK (l : Nat) : Bool := 2 ≤ l && l ≤ 24

/-- Modelled from the spec: one step of the CRC-8 with polynomial 0xD5 —
xor the byte into the accumulator, then shift eight times, xoring in the
polynomial whenever the top bit is set. -/
def crc8_update (crc b : Nat) : Nat :=
  (List.range 8).foldl
    (fun c _ => if 128 ≤ c then (c * 2) % 256 ^^^ 0xD5 else (c * 2) % 256)
    ((crc ^^^ b) % 256)

/-- Modelled from the spec: CRC-8 (polynomial 0xD5) over a byte sequence,
starting from 0; the reassembler applies it to type followed by payload. -/
def crc8 (bytes : List Nat) : Nat := bytes.foldl crc8_update 0

/-- Modelled from the spec (missing `.c` reassembler): scan a buffered byte
sequence for frames.  Bytes that are not a known destination tag are skipped
one at a time; after a sync byte, an out-of-range length byte invalidates the
sync byte and scanning resumes at the next byte; once `length + 2` bytes are
buffered the CRC over type+payload is checked against the trailing byte —
a match emits `(type, payload)` and consumes the frame, a mismatch discards
the frame and resumes scanning at the byte right after the sync byte.
Returns the unconsumed residual buffer and the emitted frames, in order. -/
def scan : List Nat → List Nat × List (Nat × List Nat)
  | [] => ([], [])
  | [b] => if isDest b then ([b], []) else ([], [])
  | b :: l :: rest2 =>
    if isDest b then
      if lenOK l then
        if rest2.length < l then (b :: l :: rest2, [])
        else
          let tp := rest2.take (l - 1)
          if crc8 tp = rest2.getD (l - 1) 0 then
            let out := scan (rest2.drop l)
            (out.1, (tp.headD 0, tp.tail) :: out.2)
          else scan (l :: rest2)
      else scan (l :: rest2)
    else scan (l :: rest2)
  termination_by buf => buf.length
  decreasing_by all_goals (simp [List.length_drop] <;> omega)

/-- Modelled from the spec: `feed` appends newly read bytes to the persistent
reassembly buffer and scans; pure function of accumulated state and input. -/
def feed (st input : List Nat) : List Nat × List (Nat × List Nat) :=
  scan (st ++ input)

/-- Feed a sequence of chunks one at a time, threading the reassembly state,
collecting all emitted frames in order. -/
def feedChunks (st : List Nat) : List (List Nat) → List Nat × List (Nat × List Nat)
  | [] => (st, [])
  | c :: cs =>
    let r1 := feed st c
    let r2 := feedChunks r1.1 cs
    (r2.1, r1.2 ++ r2.2)

/-- A byte list read as a little-endian natural number; with bits numbered
least-significant-bit-first within each byte, bit `k` of the result is bit
`k % 8` of byte `k / 8` — the bitstream order of the channels payload. -/
def bytesToNat : List Nat → Nat
  | [] => 0
  | b :: bs => b % 256 + 256 * bytesToNat bs

/-- The first `n` little-endian bytes of a natural number. -/
def natToBytes : Nat → Nat → List Nat
  | 0, _ => []
  | n + 1, x => x % 256 :: natToBytes n (x / 256)

/-- A channel list read as a base-2048 natural number: value `i` occupies
bits `[11 * i, 11 * i + 11)` of the result. -/
def channelsToNat : List Nat → Nat
  | [] => 0
  | v :: vs => v % 2048 + 2048 * channelsToNat vs

/-- Modelled from the spec (missing `.c` codec): `decode_channels` unpacks a
22-byte payload into 16 channel values, field `i` occupying bits
`[11 * i, 11 * i + 11)` of the bitstream, least-significant-bit-first within
each byte — mirroring the header's packed `crsf_channels_t` bitfields. -/
def decode_channels (payload : List Nat) : List Nat :=
  (List.range 16).map fun i => bytesToNat payload / 2 ^ (11 * i) % 2 ^ 11

/-- `pack` lays 16 channel values into the 22-byte channels payload, the
inverse direction of `decode_channels` per the spec's bitstream layout. -/
def pack (vs : List Nat) : List Nat := natToBytes 22 (channelsToNat vs)

/-- Big-endian 16-bit encoding: most significant byte first. -/
def be16 (x : Nat) : List Nat := [x / 2 ^ 8 % 256, x % 256]

/-- Big-endian 24-bit encoding: most significant byte first. -/
def be24 (x : Nat) : List Nat := [x / 2 ^ 16 % 256, x / 2 ^ 8 % 256, x % 256]

/-- Big-endian 32-bit encoding: most significant byte first. -/
def be32 (x : Nat) : List Nat :=
  [x / 2 ^ 24 % 256, x / 2 ^ 16 % 256, x / 2 ^ 8 % 256, x % 256]

/-- Big-endian 32-bit two's-complement encoding of a signed value. -/
def be32i (x : Int) : List Nat := be32 (x % 2 ^ 32).toNat

/-- A byte reinterpreted as a signed `int8_t` (two's complement). -/
def toInt8 (b : Nat) : Int :=
  if b % 256 < 128 then ((b % 256 : Nat) : Int) else ((b % 256 : Nat) : Int) - 256

/-- Battery record, from the header's packed `crsf_battery_t`:
voltage and current 16 bits, capacity 24 bits, remaining 8 bits. -/
structure crsf_battery_t where
  voltage : Nat
  current : Nat
  capacity : Nat
  remaining : Nat

/-- Modelled from the spec: the 8-byte battery payload — voltage, current,
capacity, remaining, multi-byte fields most-significant-byte-first. -/
def battery_payload (p : crsf_battery_t) : List Nat :=
  be16 p.voltage ++ be16 p.current ++ be24 p.capacity ++ [p.remaining % 256]

/-- Modelled from the spec (missing `.c` of `CRSF_send_battery_data`):
`encode_battery` emits destination, length 10, the battery type tag, the
8-byte payload, then the CRC over type and payload. -/
def encode_battery (dest : Nat) (p : crsf_battery_t) : List Nat :=
  dest % 256 :: 10 :: CRSF_TYPE_BATTERY :: battery_payload p
    ++ [crc8 (CRSF_TYPE_BATTERY :: battery_payload p)]

/-- GPS record, from the header's packed `crsf_gps_t`: signed 32-bit latitude
and longitude, 16-bit groundspeed, heading and altitude, 8-bit satellites. -/
structure crsf_gps_t where
  latitude : Int
  longitude : Int
  groundspeed : Nat
  heading : Nat
  altitude : Nat
  satellites : Nat

/-- Modelled from the spec: the 15-byte GPS payload — latitude, longitude,
groundspeed, heading, altitude, satellites, multi-byte fields
most-significant-byte-first. -/
def gps_payload (g : crsf_gps_t) : List Nat :=
  be32i g.latitude ++ be32i g.longitude ++ be16 g.groundspeed
    ++ be16 g.heading ++ be16 g.altitude ++ [g.satellites % 256]

/-- Modelled from the spec (missing `.c` of `CRSF_send_gps_data`):
`encode_gps` emits destination, length 17, the GPS type tag, the 15-byte
payload, then the CRC over type and payload. -/
def encode_gps (dest : Nat) (g : crsf_gps_t) : List Nat :=
  dest % 256 :: 17 :: CRSF_TYPE_GPS :: gps_payload g
    ++ [crc8 (CRSF_TYPE_GPS :: gps_payload g)]

/-- Link record, from the header's packed `crsf_link_t`: ten byte-sized
fields in declaration order; `up_snr` and `down_snr` are signed `int8_t`. -/
structure crsf_link_t where
  up_rssi_ant1 : Nat
  up_rssi_ant2 : Nat
  up_link_quality : Nat
  up_snr : Int
  active_antenna : Nat
  rf_profile : Nat
  up_rf_power : Nat
  down_rssi : Nat
  down_link_quality : Nat
  down_snr : Int

/-- Modelled from the spec: `decode_link` reads the 10-byte link payload one
field per byte in declaration order, the two SNR bytes as signed values. -/
def decode_link (p : List Nat) : crsf_link_t :=
  { up_rssi_ant1 := p.getD 0 0 % 256
    up_rssi_ant2 := p.getD 1 0 % 256
    up_link_quality := p.getD 2 0 % 256
    up_snr := toInt8 (p.getD 3 0)
    active_antenna := p.getD 4 0 % 256
    rf_profile := p.getD 5 0 % 256
    up_rf_power := p.getD 6 0 % 256
    down_rssi := p.getD 7 0 % 256
    down_link_quality := p.getD 8 0 % 256
    down_snr := toInt8 (p.getD 9 0) }

/-- The decoder's cached records: the most recent channel record and the most
recent link record, each stale until overwritten. -/
structure DecoderState where
  channels : List Nat
  link : crsf_link_t

/-- Modelled from the spec: dispatch a validated frame to the decode path.
A channels frame with a 22-byte payload overwrites the channel cache; a link
frame with a 10-byte payload overwrites the link cache; any payload of the
wrong length, and any other type tag, leaves the caches unchanged. -/
def handle_frame (s : DecoderState) (ty : Nat) (payload : List Nat) : DecoderState :=
  if ty = CRSF_TYPE_CHANNELS then
    if payload.length = 22 then { s with channels := decode_channels payload } else s
  else if ty = CRSF_TYPE_LINK then
    if payload.length = 10 then { s with link := decode_link payload } else s
  else s

/-- Field bit widths and signedness of the header's packed `crsf_channels_t`:
sixteen unsigned 11-bit bitfields, in declaration order. -/
def crsf_channels_widths : List (Nat × Bool) := List.replicate 16 (11, false)

/-- Field bit widths and signedness of the header's packed `crsf_link_t`:
ten 8-bit fields; fields 3 (`up_snr`) and 9 (`down_snr`) are signed. -/
def crsf_link_widths : List (Nat × Bool) :=
  [(8, false), (8, false), (8, false), (8, true), (8, false),
   (8, false), (8, false), (8, false), (8, false), (8, true)]

/-- Field bit widths and signedness of the header's packed `crsf_battery_t`:
unsigned bitfields of 16, 16, 24 and 8 bits, in declaration order. -/
def crsf_battery_widths : List (Nat × Bool) :=
  [(16, false), (16, false), (24, false), (8, false)]

/-- Field bit widths and signedness of the header's packed `crsf_gps_t`:
signed 32-bit latitude and longitude, then unsigned 16, 16, 16 and 8 bits. -/
def crsf_gps_widths : List (Nat × Bool) :=
  [(32, true), (32, true), (16, false), (16, false), (16, false), (8, false)]

/-- Size in bits of a packed struct: the sum of its field widths — the
`__attribute__((packed))` layout with fields in declaration order, no
padding. -/
def packedSizeBits (ws : List (Nat × Bool)) : Nat := (ws.map Prod.fst).sum


/-- Modelled from the spec: a byte sequence starts with a complete valid
frame iff its first byte is a destination tag, its second an in-range length
`l`, at least `l` further bytes follow, and the CRC-8 over type and payload
equals the trailing CRC byte. -/
def validFrameAt : List Nat → Bool
  | b :: l :: rest2 =>
    isDest b && lenOK l && decide (l ≤ rest2.length) &&
      (crc8 (rest2.take (l - 1)) == rest2.getD (l - 1) 0)
  | _ => false

/-- A byte sequence contains no valid frame: no byte position starts a
complete frame with a destination tag, in-range length and matching CRC. -/
def noValidFrame (g : List Nat) : Bool := g.tails.all fun t => ! validFrameAt t

/-- `scan` on the empty buffer yields nothing. -/
theorem scan_nil : scan [] = ([], []) := by simp [scan]

/-- A byte that is not a destination tag is skipped. -/
theorem scan_skip (b : Nat) (rest : List Nat) (h : isDest b = false) :
    scan (b :: rest) = scan rest := by
  match rest with
  | [] => simp [scan, h]
  | l :: r2 => simp [scan, h]

/-- A lone sync byte is retained, waiting for more input. -/
theorem scan_sync_one (b : Nat) (h : isDest b = true) : scan [b] = ([b], []) := by
  simp [scan, h]

/-- An out-of-range length byte invalidates the sync byte; scanning resumes at
the next byte. -/
theorem scan_badlen (b l : Nat) (rest2 : List Nat) (hb : isDest b = true)
    (hl : lenOK l = false) : scan (b :: l :: rest2) = scan (l :: rest2) := by
  simp [scan, hb, hl]

/-- With a valid length but fewer than `length + 2` bytes buffered, the
in-progress buffer is retained unchanged. -/
theorem scan_wait (b l : Nat) (rest2 : List Nat) (hb : isDest b = true)
    (hl : lenOK l = true) (hlt : rest2.length < l) :
    scan (b :: l :: rest2) = (b :: l :: rest2, []) := by
  simp [scan, hb, hl, hlt]

/-- With a complete frame buffered and a matching CRC, the frame's
`(type, payload)` is emitted and scanning continues after the frame. -/
theorem scan_emit (b l : Nat) (rest2 : List Nat) (hb : isDest b = true)
    (hl : lenOK l = true) (hge : l ≤ rest2.length)
    (hcrc : crc8 (rest2.take (l - 1)) = rest2.getD (l - 1) 0) :
    scan (b :: l :: rest2) =
      ((scan (rest2.drop l)).1,
       ((rest2.take (l - 1)).headD 0, (rest2.take (l - 1)).tail)
         :: (scan (rest2.drop l)).2) := by
  have hlt : ¬ rest2.length < l := by omega
  simp only [scan, hb, hl, if_true, if_false]
  rw [if_neg hlt, if_pos hcrc]

/-- With a complete frame buffered and a CRC mismatch, the frame is dropped
and scanning resumes at the byte right after the sync byte. -/
theorem scan_crcfail (b l : Nat) (rest2 : List Nat) (hb : isDest b = true)
    (hl : lenOK l = true) (hge : l ≤ rest2.length)
    (hcrc : crc8 (rest2.take (l - 1)) ≠ rest2.getD (l - 1) 0) :
    scan (b :: l :: rest2) = scan (l :: rest2) := by
  have hlt : ¬ rest2.length < l := by omega
  simp only [scan, hb, hl, if_true, if_false]
  rw [if_neg hlt, if_neg hcrc]

/-- Scanning a buffer followed by more input equals scanning the buffer,
keeping its emissions, and rescanning its residual with the new input. -/
theorem scan_append (buf more : List Nat) :
    scan (buf ++ more) =
      ((scan ((scan buf).1 ++ more)).1,
       (scan buf).2 ++ (scan ((scan buf).1 ++ more)).2) := by
  induction buf using scan.induct with
  | case1 => simp [scan_nil]
  | case2 b hb => simp [scan_sync_one b hb]
  | case3 b hb =>
    rw [Bool.not_eq_true] at hb
    simp [scan_skip b [] hb, scan_nil, List.cons_append, scan_skip b more hb]
  | case4 b l rest2 hb hl hlt =>
    rw [scan_wait b l rest2 hb hl hlt]
    simp
  | case5 b l rest2 hb hl hlt tp hcrc ih =>
    have hge : l ≤ rest2.length := by omega
    have hl1 : 2 ≤ l ∧ l ≤ 24 := by simpa [lenOK] using hl
    have h1 : l - 1 ≤ rest2.length := by omega
    have h2 : l - 1 < rest2.length := by omega
    have hge' : l ≤ (rest2 ++ more).length := by simp; omega
    have hcrc2 : crc8 (rest2.take (l - 1)) = rest2.getD (l - 1) 0 := hcrc
    have hcrc' : crc8 ((rest2 ++ more).take (l - 1)) = (rest2 ++ more).getD (l - 1) 0 := by
      rw [List.take_append_of_le_length h1, List.getD_append _ _ _ _ h2]; exact hcrc2
    rw [List.cons_append, List.cons_append,
      scan_emit b l (rest2 ++ more) hb hl hge' hcrc',
      scan_emit b l rest2 hb hl hge hcrc2,
      List.take_append_of_le_length h1, List.drop_append_of_le_length hge, ih]
    simp
  | case6 b l rest2 hb hl hlt tp hcrc ih =>
    have hge : l ≤ rest2.length := by omega
    have hl1 : 2 ≤ l ∧ l ≤ 24 := by simpa [lenOK] using hl
    have h1 : l - 1 ≤ rest2.length := by omega
    have h2 : l - 1 < rest2.length := by omega
    have hge' : l ≤ (rest2 ++ more).length := by simp; omega
    have hcrc2 : crc8 (rest2.take (l - 1)) ≠ rest2.getD (l - 1) 0 := hcrc
    have hcrc' : crc8 ((rest2 ++ more).take (l - 1)) ≠ (rest2 ++ more).getD (l - 1) 0 := by
      rw [List.take_append_of_le_length h1, List.getD_append _ _ _ _ h2]; exact hcrc2
    rw [List.cons_append, List.cons_append,
      scan_crcfail b l (rest2 ++ more) hb hl hge' hcrc',
      scan_crcfail b l rest2 hb hl hge hcrc2]
    exact ih
  | case7 b l rest2 hb hl ih =>
    rw [Bool.not_eq_true] at hl
    rw [List.cons_append, List.cons_append,
      scan_badlen b l (rest2 ++ more) hb hl,
      scan_badlen b l rest2 hb hl]
    exact ih
  | case8 b l rest2 hb ih =>
    rw [Bool.not_eq_true] at hb
    rw [List.cons_append,
      scan_skip b (l :: rest2 ++ more) hb,
      scan_skip b (l :: rest2) hb]
    exact ih

/-- Chunked feeding from any residual buffer agrees with scanning the buffer
followed by all chunks at once. -/
theorem feedChunks_flatten (cs : List (List Nat)) : ∀ buf : List Nat,
    scan (buf ++ cs.flatten) =
      ((feedChunks (scan buf).1 cs).1,
       (scan buf).2 ++ (feedChunks (scan buf).1 cs).2) := by
  induction cs with
  | nil => intro buf; simp [feedChunks]
  | cons c cs ih =>
    intro buf
    have h1 : buf ++ (c :: cs).flatten = (buf ++ c) ++ cs.flatten := by
      simp [List.flatten_cons]
    rw [h1, ih (buf ++ c), scan_append buf c]
    simp [feedChunks, feed]

/-- Everything before further input is skipped when no byte of the prefix is
a destination tag. -/
theorem scan_garbage_skipped (g : List Nat) (t : List Nat)
    (hg : ∀ x ∈ g, isDest x = false) : scan (g ++ t) = scan t := by
  induction g with
  | nil => simp
  | cons x g ih =>
    rw [List.cons_append, scan_skip x (g ++ t) (hg x (by simp)),
      ih (fun y hy => hg y (by simp [hy]))]


theorem bytesToNat_natToBytes (n x : Nat) :
    bytesToNat (natToBytes n x) = x % 2 ^ (8 * n) := by
  induction n generalizing x with
  | zero => simp [natToBytes, bytesToNat, Nat.mod_one]
  | succ n ih =>
    rw [natToBytes, bytesToNat, ih]
    have h : 2 ^ (8 * (n + 1)) = 256 * 2 ^ (8 * n) := by ring
    rw [h, Nat.mod_mul]
    omega

theorem channelsToNat_lt (vs : List Nat) :
    channelsToNat vs < 2048 ^ vs.length := by
  induction vs with
  | nil => simp [channelsToNat]
  | cons v vs ih =>
    rw [channelsToNat, List.length_cons, pow_succ]
    have h : v % 2048 < 2048 := Nat.mod_lt _ (by norm_num)
    calc v % 2048 + 2048 * channelsToNat vs
        < 2048 + 2048 * channelsToNat vs := by omega
      _ ≤ 2048 * 2048 ^ vs.length := by nlinarith [ih]
      _ = 2048 ^ vs.length * 2048 := by ring

theorem channelsToNat_extract (vs : List Nat) (i : Nat) (hi : i < vs.length)
    (hv : ∀ v ∈ vs, v < 2048) :
    channelsToNat vs / 2048 ^ i % 2048 = vs.getD i 0 := by
  induction vs generalizing i with
  | nil => simp at hi
  | cons v vs ih =>
    have hvlt : v < 2048 := hv v (by simp)
    match i with
    | 0 =>
      simp only [channelsToNat, pow_zero, Nat.div_one, List.getD_cons_zero]
      rw [Nat.add_mul_mod_self_left]
      omega
    | i + 1 =>
      have hq : channelsToNat (v :: vs) / 2048 = channelsToNat vs := by
        rw [channelsToNat, Nat.add_mul_div_left _ _ (by norm_num)]
        rw [Nat.div_eq_of_lt (Nat.mod_lt _ (by norm_num))]
        omega
      rw [pow_succ, mul_comm, ← Nat.div_div_eq_div_mul, hq]
      have := ih i (by simpa using hi) (fun y hy => hv y (by simp [hy]))
      simpa using this

/-- C3: packing 16 channel values in `[0, 2047]` into the 22-byte payload and
decoding with `decode_channels` returns the original values in order. -/
theorem decode_channels_pack_roundtrip (vs : List Nat) (hlen : vs.length = 16)
    (hv : ∀ v ∈ vs, v < 2048) : decode_channels (pack vs) = vs := by
  have hlt : channelsToNat vs < 2 ^ (8 * 22) := by
    have := channelsToNat_lt vs
    rw [hlen] at this
    calc channelsToNat vs < 2048 ^ 16 := this
      _ ≤ 2 ^ 176 := by norm_num
  have hN : bytesToNat (pack vs) = channelsToNat vs := by
    rw [pack, bytesToNat_natToBytes, Nat.mod_eq_of_lt hlt]
  apply List.ext_getElem
  · simp [decode_channels, hlen]
  · intro i h1 h2
    simp only [decode_channels, List.getElem_map, List.getElem_range, hN]
    have hi : i < 16 := by simpa [decode_channels] using h1
    have h2048 : (2048 : Nat) = 2 ^ 11 := by norm_num
    have hpow : 2 ^ (11 * i) = 2048 ^ i := by
      rw [h2048, ← pow_mul]
    rw [hpow, show (2 : Nat) ^ 11 = 2048 by norm_num,
      channelsToNat_extract vs i (by omega) hv,
      List.getD_eq_getElem vs 0 h2]



theorem natToBytes_length (n x : Nat) : (natToBytes n x).length = n := by
  induction n generalizing x with
  | zero => simp [natToBytes]
  | succ n ih => simp [natToBytes, ih]

/-- C1: feeding a byte sequence split into arbitrary consecutive chunks, with
the reassembly state persisting across calls, emits exactly the same
validated `(type, payload)` frames — and leaves the same residual state — as
feeding the whole sequence in a single call. -/
theorem feed_chunking_invariant (chunks : List (List Nat)) :
    feedChunks [] chunks = feed [] chunks.flatten := by
  have h := feedChunks_flatten chunks []
  simp [scan_nil] at h
  simp [feed, h]

/-- C2: with a complete frame buffered (sync byte, in-range length and
`length + 2` bytes available), the frame's `(type, payload)` is emitted iff
the CRC-8 (poly 0xD5) over type and payload equals the trailing byte; on a
mismatch the buffered frame is dropped and scanning resumes at the byte
right after the failed sync byte, not after the reported frame length. -/
theorem crc_gate (b l : Nat) (rest2 : List Nat) (hb : isDest b = true)
    (hl : lenOK l = true) (hge : l ≤ rest2.length) :
    (crc8 (rest2.take (l - 1)) = rest2.getD (l - 1) 0 →
      scan (b :: l :: rest2) =
        ((scan (rest2.drop l)).1,
         ((rest2.take (l - 1)).headD 0, (rest2.take (l - 1)).tail)
           :: (scan (rest2.drop l)).2)) ∧
    (crc8 (rest2.take (l - 1)) ≠ rest2.getD (l - 1) 0 →
      scan (b :: l :: rest2) = scan (l :: rest2)) :=
  ⟨scan_emit b l rest2 hb hl hge, scan_crcfail b l rest2 hb hl hge⟩

theorem crc_gate_witness :
    isDest 200 = true ∧ lenOK 3 = true ∧ 3 ≤ [20, 5, 183].length ∧
    ((crc8 ([20, 5, 183].take (3 - 1)) = [20, 5, 183].getD (3 - 1) 0 →
      scan (200 :: 3 :: [20, 5, 183]) =
        ((scan ([20, 5, 183].drop 3)).1,
         (([20, 5, 183].take (3 - 1)).headD 0, ([20, 5, 183].take (3 - 1)).tail)
           :: (scan ([20, 5, 183].drop 3)).2)) ∧
     (crc8 ([20, 5, 183].take (3 - 1)) ≠ [20, 5, 183].getD (3 - 1) 0 →
      scan (200 :: 3 :: [20, 5, 183]) = scan (3 :: [20, 5, 183]))) :=
  ⟨by decide, by decide, by decide,
   crc_gate 200 3 [20, 5, 183] (by decide) (by decide) (by decide)⟩

theorem decode_channels_pack_roundtrip_witness :
    ([0, 2047, 1, 2, 3, 4, 5, 6, 7, 8, 9, 10, 11, 12, 13, 1000] : List Nat).length = 16 ∧
    (∀ v ∈ ([0, 2047, 1, 2, 3, 4, 5, 6, 7, 8, 9, 10, 11, 12, 13, 1000] : List Nat), v < 2048) ∧
    decode_channels (pack [0, 2047, 1, 2, 3, 4, 5, 6, 7, 8, 9, 10, 11, 12, 13, 1000]) =
      [0, 2047, 1, 2, 3, 4, 5, 6, 7, 8, 9, 10, 11, 12, 13, 1000] :=
  ⟨by decide, by decide,
   decode_channels_pack_roundtrip _ (by decide) (by decide)⟩

/-- C4: `encode_battery` produces exactly the 12-byte frame: destination,
length 10, type 0x08, big-endian voltage, current and capacity, remaining,
then the CRC-8 over type and the 8 payload bytes; voltage 130 encodes as
0x00 0x82 and capacity 1000 as 0x00 0x03 0xE8. -/
theorem encode_battery_bytes (dest : Nat) (p : crsf_battery_t) :
    encode_battery dest p =
      [dest % 256, 10, 0x08,
       p.voltage / 2 ^ 8 % 256, p.voltage % 256,
       p.current / 2 ^ 8 % 256, p.current % 256,
       p.capacity / 2 ^ 16 % 256, p.capacity / 2 ^ 8 % 256, p.capacity % 256,
       p.remaining % 256,
       crc8 (0x08 :: battery_payload p)] ∧
    (encode_battery dest p).length = 12 ∧
    be16 130 = [0x00, 0x82] ∧ be24 1000 = [0x00, 0x03, 0xE8] := by
  refine ⟨?_, ?_, by decide, by decide⟩ <;>
    simp [encode_battery, battery_payload, be16, be24, CRSF_TYPE_BATTERY]

/-- C5: `encode_gps` produces the destination byte, length 17, the GPS type
byte 0x02, then big-endian latitude (4 bytes), longitude (4), groundspeed
(2), heading (2), altitude (2) and satellites (1) — a 15-byte payload —
followed by the CRC-8 over type and payload. -/
theorem encode_gps_bytes (dest : Nat) (g : crsf_gps_t) :
    encode_gps dest g =
      [dest % 256, 17, 0x02,
       (g.latitude % 2 ^ 32).toNat / 2 ^ 24 % 256,
       (g.latitude % 2 ^ 32).toNat / 2 ^ 16 % 256,
       (g.latitude % 2 ^ 32).toNat / 2 ^ 8 % 256,
       (g.latitude % 2 ^ 32).toNat % 256,
       (g.longitude % 2 ^ 32).toNat / 2 ^ 24 % 256,
       (g.longitude % 2 ^ 32).toNat / 2 ^ 16 % 256,
       (g.longitude % 2 ^ 32).toNat / 2 ^ 8 % 256,
       (g.longitude % 2 ^ 32).toNat % 256,
       g.groundspeed / 2 ^ 8 % 256, g.groundspeed % 256,
       g.heading / 2 ^ 8 % 256, g.heading % 256,
       g.altitude / 2 ^ 8 % 256, g.altitude % 256,
       g.satellites % 256,
       crc8 (0x02 :: gps_payload g)] ∧
    (encode_gps dest g).length = 19 ∧ (gps_payload g).length = 15 := by
  refine ⟨?_, ?_, ?_⟩ <;>
    simp [encode_gps, gps_payload, be32i, be32, be16, CRSF_TYPE_GPS]

theorem noValidFrame_cons (x : Nat) (xs : List Nat)
    (h : noValidFrame (x :: xs) = true) : noValidFrame xs = true := by
  simp only [noValidFrame, List.tails_cons, List.all_cons, Bool.and_eq_true] at h
  exact h.2

theorem noValidFrame_head (g : List Nat) (h : noValidFrame g = true) :
    validFrameAt g = false := by
  simp only [noValidFrame, List.all_eq_true] at h
  have hm : g ∈ g.tails := (List.mem_tails g g).mpr (List.suffix_refl g)
  simpa using h g hm

theorem validFrameAt_intro (b l : Nat) (rest2 : List Nat) (hb : isDest b = true)
    (hl : lenOK l = true) (hge : l ≤ rest2.length)
    (hcrc : crc8 (rest2.take (l - 1)) = rest2.getD (l - 1) 0) :
    validFrameAt (b :: l :: rest2) = true := by
  simp [validFrameAt, hb, hl, hge, hcrc]

/-- Scanning a buffer that contains no valid frame emits nothing, whatever
mix of non-sync bytes, bad lengths, failing CRCs or truncated frames it
holds. -/
theorem scan_noValidFrame_no_emit (g : List Nat) (hg : noValidFrame g = true) :
    (scan g).2 = [] := by
  induction g using scan.induct with
  | case1 => simp [scan_nil]
  | case2 b hb => simp [scan_sync_one b hb]
  | case3 b hb =>
    rw [Bool.not_eq_true] at hb
    simp [scan_skip b [] hb, scan_nil]
  | case4 b l rest2 hb hl hlt =>
    simp [scan_wait b l rest2 hb hl hlt]
  | case5 b l rest2 hb hl hlt tp hcrc ih =>
    have hge : l ≤ rest2.length := by omega
    have hv : validFrameAt (b :: l :: rest2) = true :=
      validFrameAt_intro b l rest2 hb hl hge hcrc
    have hv' := noValidFrame_head _ hg
    rw [hv] at hv'
    exact absurd hv' (by simp)
  | case6 b l rest2 hb hl hlt tp hcrc ih =>
    have hge : l ≤ rest2.length := by omega
    rw [scan_crcfail b l rest2 hb hl hge hcrc]
    exact ih (noValidFrame_cons _ _ hg)
  | case7 b l rest2 hb hl ih =>
    rw [Bool.not_eq_true] at hl
    rw [scan_badlen b l rest2 hb hl]
    exact ih (noValidFrame_cons _ _ hg)
  | case8 b l rest2 hb ih =>
    rw [Bool.not_eq_true] at hb
    rw [scan_skip b (l :: rest2) hb]
    exact ih (noValidFrame_cons _ _ hg)

/-- C6 as frozen is refuted at a concrete input: the garbage `[0xC8, 24]`
contains no valid frame, yet after it a subsequently fed complete valid
frame is not emitted — the pending partial frame started by the garbage's
destination byte swallows the valid frame's bytes. -/
theorem garbage_recovery_counterexample :
    noValidFrame [200, 24] = true ∧
    validFrameAt [200, 3, 20, 5, 183] = true ∧
    (feedChunks [] [[200, 24], [200, 3, 20, 5, 183]]).2 = [] := by
  have h1 : scan [200, 24] = ([200, 24], []) :=
    scan_wait 200 24 [] (by decide) (by decide) (by decide)
  have h2 : scan [200, 24, 200, 3, 20, 5, 183] =
      ([200, 24, 200, 3, 20, 5, 183], []) :=
    scan_wait 200 24 [200, 3, 20, 5, 183] (by decide) (by decide) (by decide)
  refine ⟨by decide, by decide, ?_⟩
  simp [feedChunks, feed, h1, h2]

/-- C6 (amended): feeding any byte sequence containing no valid frame —
including destination-tag bytes whose length or CRC fails — emits no frame;
non-sync bytes are skipped one at a time; an out-of-range length byte only
resynchronizes scanning at the next byte; and whenever such garbage leaves
no partial frame pending in the reassembly buffer, a subsequently fed valid
frame is emitted and decoded intact. -/
theorem garbage_noemit_recovery (g : List Nat) (x : Nat) (xs : List Nat)
    (b l : Nat) (rest2 : List Nat) (b2 l2 : Nat) (r2 : List Nat)
    (hg : noValidFrame g = true)
    (hx : isDest x = false)
    (hb : isDest b = true) (hl : lenOK l = true) (hlen : rest2.length = l)
    (hcrc : crc8 (rest2.take (l - 1)) = rest2.getD (l - 1) 0)
    (hb2 : isDest b2 = true) (hl2 : lenOK l2 = false) :
    (feed [] g).2 = [] ∧
    scan (x :: xs) = scan xs ∧
    scan (b2 :: l2 :: r2) = scan (l2 :: r2) ∧
    ((scan g).1 = [] →
      (feedChunks [] [g, b :: l :: rest2]).2 =
        [((rest2.take (l - 1)).headD 0, (rest2.take (l - 1)).tail)]) := by
  have h2 : (scan g).2 = [] := scan_noValidFrame_no_emit g hg
  refine ⟨by simpa [feed] using h2, scan_skip x xs hx,
    scan_badlen b2 l2 r2 hb2 hl2, ?_⟩
  intro hr
  have hemit : scan (b :: l :: rest2) =
      ([], [((rest2.take (l - 1)).headD 0, (rest2.take (l - 1)).tail)]) := by
    rw [scan_emit b l rest2 hb hl (le_of_eq hlen.symm) hcrc]
    have hd : rest2.drop l = [] := List.drop_eq_nil_of_le (by omega)
    rw [hd, scan_nil]
  simp [feedChunks, feed, hr, h2, hemit]

theorem garbage_noemit_recovery_witness :
    noValidFrame [200, 3, 20, 5, 0] = true ∧
    isDest 7 = false ∧
    isDest 200 = true ∧ lenOK 3 = true ∧ ([20, 5, 183] : List Nat).length = 3 ∧
    crc8 ([20, 5, 183].take (3 - 1)) = [20, 5, 183].getD (3 - 1) 0 ∧
    isDest 234 = true ∧ lenOK 1 = false ∧
    ((feed [] [200, 3, 20, 5, 0]).2 = [] ∧
     scan (7 :: [1, 2]) = scan [1, 2] ∧
     scan (234 :: 1 :: [9]) = scan (1 :: [9]) ∧
     ((scan [200, 3, 20, 5, 0]).1 = [] →
       (feedChunks [] [[200, 3, 20, 5, 0], 200 :: 3 :: [20, 5, 183]]).2 =
         [(([20, 5, 183].take (3 - 1)).headD 0, ([20, 5, 183].take (3 - 1)).tail)])) :=
  ⟨by decide, by decide, by decide, by decide, by decide, by decide, by decide, by decide,
   garbage_noemit_recovery [200, 3, 20, 5, 0] 7 [1, 2] 200 3 [20, 5, 183] 234 1 [9]
     (by decide) (by decide) (by decide) (by decide) (by decide) (by decide)
     (by decide) (by decide)⟩

/-- C7: a channels payload whose length is not 22, and a link payload whose
length is not 10, leave the corresponding cached record exactly unchanged. -/
theorem bad_payload_length_noop (s : DecoderState) (p q : List Nat)
    (hp : p.length ≠ 22) (hq : q.length ≠ 10) :
    handle_frame s CRSF_TYPE_CHANNELS p = s ∧
    handle_frame s CRSF_TYPE_LINK q = s := by
  constructor
  · simp [handle_frame, hp]
  · simp [handle_frame, hq, CRSF_TYPE_LINK, CRSF_TYPE_CHANNELS]

theorem bad_payload_length_noop_witness :
    ([1] : List Nat).length ≠ 22 ∧ ([] : List Nat).length ≠ 10 ∧
    (handle_frame ⟨[], ⟨0, 0, 0, 0, 0, 0, 0, 0, 0, 0⟩⟩ CRSF_TYPE_CHANNELS [1] =
       (⟨[], ⟨0, 0, 0, 0, 0, 0, 0, 0, 0, 0⟩⟩ : DecoderState) ∧
     handle_frame ⟨[], ⟨0, 0, 0, 0, 0, 0, 0, 0, 0, 0⟩⟩ CRSF_TYPE_LINK [] =
       (⟨[], ⟨0, 0, 0, 0, 0, 0, 0, 0, 0, 0⟩⟩ : DecoderState)) :=
  ⟨by decide, by decide,
   bad_payload_length_noop ⟨[], ⟨0, 0, 0, 0, 0, 0, 0, 0, 0, 0⟩⟩ [1] []
     (by decide) (by decide)⟩

/-- C8: the wire tags are flight controller 0xC8, radio 0xEA, link 0x14,
channels 0x16, battery 0x08, GPS 0x02; the reassembler syncs exactly on the
two destination tags, the encoders place the destination and type tags at
bytes 0 and 2 of their frames, and the decode dispatch leaves the caches
unchanged for the outbound-only types. -/
theorem wire_tags :
    CRSF_DEST_FC = 0xC8 ∧ CRSF_DEST_RADIO = 0xEA ∧
    CRSF_TYPE_LINK = 0x14 ∧ CRSF_TYPE_CHANNELS = 0x16 ∧
    CRSF_TYPE_BATTERY = 0x08 ∧ CRSF_TYPE_GPS = 0x02 ∧
    (∀ b, isDest b = true ↔ (b = CRSF_DEST_FC ∨ b = CRSF_DEST_RADIO)) ∧
    (∀ d p, (encode_battery d p).getD 0 0 = d % 256) ∧
    (∀ d p, (encode_battery d p).getD 2 0 = CRSF_TYPE_BATTERY) ∧
    (∀ d g, (encode_gps d g).getD 0 0 = d % 256) ∧
    (∀ d g, (encode_gps d g).getD 2 0 = CRSF_TYPE_GPS) ∧
    (∀ s p, handle_frame s CRSF_TYPE_BATTERY p = s ∧
            handle_frame s CRSF_TYPE_GPS p = s) := by
  refine ⟨rfl, rfl, rfl, rfl, rfl, rfl, ?_, ?_, ?_, ?_, ?_, ?_⟩
  · intro b; simp [isDest, CRSF_DEST_FC, CRSF_DEST_RADIO]
  · intro d p; simp [encode_battery]
  · intro d p; simp [encode_battery]
  · intro d g; simp [encode_gps]
  · intro d g; simp [encode_gps]
  · intro s p
    constructor <;>
      simp [handle_frame, CRSF_TYPE_BATTERY, CRSF_TYPE_GPS,
        CRSF_TYPE_CHANNELS, CRSF_TYPE_LINK]

/-- C9: the encoders truncate every field to its wire width with no range
check — each 8/16/24/32-bit field is encoded modulo 2 to its width, so a
capacity beyond 24 bits wraps modulo 2^24, and likewise for the rest. -/
theorem encode_truncates (d : Nat) (p : crsf_battery_t) (g : crsf_gps_t) :
    encode_battery d
        ⟨p.voltage % 2 ^ 16, p.current % 2 ^ 16,
         p.capacity % 2 ^ 24, p.remaining % 2 ^ 8⟩ = encode_battery d p ∧
    encode_gps d
        ⟨g.latitude % 2 ^ 32, g.longitude % 2 ^ 32, g.groundspeed % 2 ^ 16,
         g.heading % 2 ^ 16, g.altitude % 2 ^ 16, g.satellites % 2 ^ 8⟩ =
      encode_gps d g ∧
    encode_battery (d % 2 ^ 8) p = encode_battery d p := by
  have hbat : battery_payload
      ⟨p.voltage % 2 ^ 16, p.current % 2 ^ 16,
       p.capacity % 2 ^ 24, p.remaining % 2 ^ 8⟩ = battery_payload p := by
    simp only [battery_payload, be16, be24]
    simp
    omega
  have hgps : gps_payload
      ⟨g.latitude % 2 ^ 32, g.longitude % 2 ^ 32, g.groundspeed % 2 ^ 16,
       g.heading % 2 ^ 16, g.altitude % 2 ^ 16, g.satellites % 2 ^ 8⟩ =
      gps_payload g := by
    simp only [gps_payload, be32i, be32, be16]
    simp
    omega
  refine ⟨?_, ?_, ?_⟩
  · simp only [encode_battery, hbat]
  · simp only [encode_gps, hgps]
  · simp only [encode_battery]
    simp

/-- C10: the packed records have byte sizes equal to their wire payload
lengths, with fields in declaration order and no padding: channels is 22
bytes of sixteen 11-bit fields, link is 10 bytes with `up_snr` and
`down_snr` signed, battery is 8 bytes and GPS is 15 bytes. -/
theorem packed_layout (p : crsf_battery_t) (g : crsf_gps_t)
    (vs : List Nat) (q : List Nat) :
    packedSizeBits crsf_channels_widths = 22 * 8 ∧
    packedSizeBits crsf_link_widths = 10 * 8 ∧
    packedSizeBits crsf_battery_widths = 8 * 8 ∧
    packedSizeBits crsf_gps_widths = 15 * 8 ∧
    crsf_channels_widths =
      [(11, false), (11, false), (11, false), (11, false), (11, false),
       (11, false), (11, false), (11, false), (11, false), (11, false),
       (11, false), (11, false), (11, false), (11, false), (11, false),
       (11, false)] ∧
    crsf_link_widths.map Prod.snd =
      [false, false, false, true, false, false, false, false, false, true] ∧
    (battery_payload p).length = 8 ∧
    (gps_payload g).length = 15 ∧
    (pack vs).length = 22 ∧
    (decode_link q).up_snr = toInt8 (q.getD 3 0) ∧
    (decode_link q).down_snr = toInt8 (q.getD 9 0) ∧
    toInt8 255 = -1 := by
  refine ⟨by decide, by decide, by decide, by decide, by decide, by decide,
    ?_, ?_, ?_, rfl, rfl, by decide⟩
  · simp [battery_payload, be16, be24]
  · simp [gps_payload, be32i, be32, be16]
  · simp [pack, natToBytes_length]


end CRSF
